import Mathlib

/-!
Verification of the StudyBuddy Active Recall engine.

The repository ships the frontend (studyagent-frontend) and the Active
Recall README; the backend Scheduler / Session Orchestrator / Progress
Aggregator are specified in spec.md (§3, §4, §6) and are modelled here
from the spec.  Frontend answer-handling code (QuizMode.tsx,
TopicViewer's handleSubmitAnswer) is embedded from the TypeScript source.
-/

namespace StudyBuddy

/-- Ordered 5-value mastery enumeration, from spec §3 and
src/studyagent-frontend/src/services/api.ts (Concept.mastery_level):
UNKNOWN < LEARNING < FAMILIAR < PROFICIENT < MASTERED. -/
inductive MasteryLevel where
  | UNKNOWN
  | LEARNING
  | FAMILIAR
  | PROFICIENT
  | MASTERED
deriving DecidableEq, Repr

/-- Numeric index of a mastery level (schema §6: mastery_level:int[0..4]). -/
def MasteryLevel.toNat : MasteryLevel → Nat
  | .UNKNOWN => 0
  | .LEARNING => 1
  | .FAMILIAR => 2
  | .PROFICIENT => 3
  | .MASTERED => 4

/-- Promote by exactly one step, ceiling at MASTERED (spec §4.1). -/
def MasteryLevel.promote : MasteryLevel → MasteryLevel
  | .UNKNOWN => .LEARNING
  | .LEARNING => .FAMILIAR
  | .FAMILIAR => .PROFICIENT
  | .PROFICIENT => .MASTERED
  | .MASTERED => .MASTERED

/-- Demote by exactly one step, floor at UNKNOWN (spec §4.1). -/
def MasteryLevel.demote : MasteryLevel → MasteryLevel
  | .UNKNOWN => .UNKNOWN
  | .LEARNING => .UNKNOWN
  | .FAMILIAR => .LEARNING
  | .PROFICIENT => .FAMILIAR
  | .MASTERED => .PROFICIENT

/-- Closed 4-value difficulty enumeration, from api.ts
(Concept.difficulty_level) and schema §6 (difficulty_level:int[0..3]). -/
inductive DifficultyLevel where
  | BASIC
  | INTERMEDIATE
  | ADVANCED
  | EXPERT
deriving DecidableEq, Repr

/-- Base review interval in days per mastery level, applied when the
answer is correct (spec §4.1; README: UNKNOWN 1d, LEARNING 2d,
FAMILIAR 4d, PROFICIENT 7d, MASTERED 14d). -/
def baseIntervalDays : MasteryLevel → Nat
  | .UNKNOWN => 1
  | .LEARNING => 2
  | .FAMILIAR => 4
  | .PROFICIENT => 7
  | .MASTERED => 14

/-- Timestamps are integer seconds; one day is 86400 seconds. -/
def secondsPerDay : Int := 86400

/-- Result of one Scheduler transition (spec §4.1): the new mastery
level, the new correct streak, the new unaided-correct sub-counter
(carried by the Session Orchestrator alongside `correct_streak`), and
the review interval in days. -/
structure SchedulerResult where
  newMastery : MasteryLevel
  newStreak : Nat
  newUnaided : Nat
  reviewIntervalDays : Nat
deriving DecidableEq, Repr

/-- Modelled from the spec: the backend Scheduler transition function
(spec §4.1 `next_state`; the Python implementation is not in src/).
On incorrect: streak 0, demote one step (floor UNKNOWN), interval 1 day.
On correct: streak + 1; promote one step (ceiling MASTERED) and reset
the streak when the new streak reaches 3 and the last three correct
answers were hint-free (the unaided sub-counter reaches 3); hinted
correct answers reset the unaided sub-counter without resetting the
streak.  The interval is the base interval of the post-transition
mastery level. -/
def next_state (mastery : MasteryLevel) (streak unaided : Nat)
    (correct : Bool) (hintsUsed : Nat) : SchedulerResult :=
  match correct with
  | true =>
    let ns := streak + 1
    let nu := if hintsUsed = 0 then unaided + 1 else 0
    if 3 ≤ ns ∧ 3 ≤ nu then
      let m := mastery.promote
      { newMastery := m, newStreak := 0, newUnaided := 0,
        reviewIntervalDays := baseIntervalDays m }
    else
      { newMastery := mastery, newStreak := ns, newUnaided := nu,
        reviewIntervalDays := baseIntervalDays mastery }
  | false =>
    { newMastery := mastery.demote, newStreak := 0, newUnaided := 0,
      reviewIntervalDays := 1 }

/-- `next_review = timestamp_of_submission + review_interval` (spec §4.1). -/
def nextReviewAt (ts : Int) (intervalDays : Nat) : Int :=
  ts + intervalDays * secondsPerDay

/-- Demotion moves down exactly one index, with floor at UNKNOWN. -/
theorem demote_toNat (m : MasteryLevel) : m.demote.toNat = m.toNat - 1 := by
  cases m <;> rfl

/-- Promotion moves up exactly one index, with ceiling at MASTERED. -/
theorem promote_toNat (m : MasteryLevel) :
    m.promote.toNat = min (m.toNat + 1) 4 := by
  cases m <;> rfl

/-- C1: for every concept state and every single incorrect answer, the
Scheduler returns new_streak = 0, a review interval of 1 day regardless
of current mastery, and a mastery level demoted by exactly one step with
floor at UNKNOWN (never more than one level down, never below UNKNOWN). -/
theorem incorrect_answer_demotes_one_step (m : MasteryLevel)
    (streak unaided hintsUsed : Nat) :
    (next_state m streak unaided false hintsUsed).newStreak = 0 ∧
    (next_state m streak unaided false hintsUsed).reviewIntervalDays = 1 ∧
    (next_state m streak unaided false hintsUsed).newMastery.toNat
      = m.toNat - 1 ∧
    m.toNat ≤ (next_state m streak unaided false hintsUsed).newMastery.toNat + 1 := by
  refine ⟨rfl, rfl, ?_, ?_⟩ <;> cases m <;> simp [next_state, MasteryLevel.demote, MasteryLevel.toNat]

set_option maxRecDepth 4000 in
/-- C2: from a fresh streak state, at any level L below MASTERED, three
consecutive correct hint-free answers promote mastery by exactly one
step to L+1 and reset the streak to 0; a correct answer that does not
complete three consecutive unaided correct answers leaves mastery
unchanged with new_streak = current_streak + 1; a fourth consecutive
correct answer does not promote twice (it leaves mastery at L+1 with
streak 1). -/
theorem three_unaided_correct_promote_once (m : MasteryLevel)
    (hm : m ≠ MasteryLevel.MASTERED) (streak unaided hintsUsed : Nat)
    (hno : ¬ (3 ≤ streak + 1 ∧
      3 ≤ (if hintsUsed = 0 then unaided + 1 else 0))) :
    ((next_state m streak unaided true hintsUsed).newMastery = m ∧
     (next_state m streak unaided true hintsUsed).newStreak = streak + 1) ∧
    (let r1 := next_state m 0 0 true 0
     let r2 := next_state r1.newMastery r1.newStreak r1.newUnaided true 0
     let r3 := next_state r2.newMastery r2.newStreak r2.newUnaided true 0
     let r4 := next_state r3.newMastery r3.newStreak r3.newUnaided true 0
     r3.newMastery.toNat = m.toNat + 1 ∧ r3.newStreak = 0 ∧
     r4.newMastery = r3.newMastery ∧ r4.newStreak = 1) := by
  constructor
  · dsimp only [next_state]
    rw [if_neg hno]
    exact ⟨rfl, rfl⟩
  · cases m
    · decide
    · decide
    · decide
    · decide
    · exact absurd rfl hm

/-- Witness for C2 at LEARNING with streak 1, unaided 1, no hints:
the hypotheses are satisfiable and the conclusion holds concretely. -/
theorem three_unaided_correct_promote_once_witness :
    (MasteryLevel.LEARNING ≠ MasteryLevel.MASTERED ∧
     ¬ (3 ≤ 1 + 1 ∧ 3 ≤ (if 0 = 0 then 1 + 1 else 0))) ∧
    (((next_state .LEARNING 1 1 true 0).newMastery = .LEARNING ∧
      (next_state .LEARNING 1 1 true 0).newStreak = 1 + 1) ∧
     (let r1 := next_state .LEARNING 0 0 true 0
      let r2 := next_state r1.newMastery r1.newStreak r1.newUnaided true 0
      let r3 := next_state r2.newMastery r2.newStreak r2.newUnaided true 0
      let r4 := next_state r3.newMastery r3.newStreak r3.newUnaided true 0
      r3.newMastery.toNat = MasteryLevel.LEARNING.toNat + 1 ∧
      r3.newStreak = 0 ∧
      r4.newMastery = r3.newMastery ∧ r4.newStreak = 1)) :=
  ⟨⟨by decide, by decide⟩,
   three_unaided_correct_promote_once .LEARNING (by decide) 1 1 0 (by decide)⟩

set_option maxRecDepth 4000 in
/-- C3: for every evaluated answer, next_review is the submission
timestamp plus the base interval of the post-transition mastery level
when the answer is correct (promotion or not), and the submission
timestamp plus 1 day when the answer is incorrect. -/
theorem next_review_from_post_transition_level (m : MasteryLevel)
    (streak unaided hintsUsed : Nat) (ts : Int) :
    nextReviewAt ts (next_state m streak unaided true hintsUsed).reviewIntervalDays
      = ts + baseIntervalDays
          (next_state m streak unaided true hintsUsed).newMastery * secondsPerDay ∧
    nextReviewAt ts (next_state m streak unaided false hintsUsed).reviewIntervalDays
      = ts + 1 * secondsPerDay := by
  constructor
  · dsimp only [next_state, nextReviewAt]
    split <;> split <;> rfl
  · rfl

/-- Concept record, from the §6 schema and api.ts `Concept`:
`last_reviewed` is nullable (never reviewed), `next_review` is always
present; the unaided-correct sub-counter is carried alongside
`correct_streak` per spec §4.1. -/
structure Concept where
  id : Nat
  name : String
  content : String
  mastery_level : MasteryLevel
  difficulty_level : DifficultyLevel
  last_reviewed : Option Int
  next_review : Int
  review_count : Nat
  correct_streak : Nat
  unaided_streak : Nat
deriving DecidableEq, Repr

/-- A concept is due when `next_review <= now` (spec §3). -/
def is_due (now : Int) (c : Concept) : Bool :=
  c.next_review ≤ now

/-- Modelled from the spec: the due-selection ordering key (spec §4.1
tie-break; the backend implementation is not in src/): ascending
mastery_level first, then ascending next_review. -/
def dueKeyLE (a b : Concept) : Prop :=
  a.mastery_level.toNat < b.mastery_level.toNat ∨
    (a.mastery_level.toNat = b.mastery_level.toNat ∧ a.next_review ≤ b.next_review)

instance : DecidableRel dueKeyLE := fun a b => by
  unfold dueKeyLE; infer_instance

instance : IsTotal Concept dueKeyLE :=
  ⟨by intro a b; unfold dueKeyLE; omega⟩

instance : IsTrans Concept dueKeyLE :=
  ⟨by intro a b c; unfold dueKeyLE; omega⟩

/-- Modelled from the spec: due selection (spec §4.1) — the due
concepts of the scope, ordered by the lexicographic
(mastery_level, next_review) key. -/
def due_concepts (concepts : List Concept) (now : Int) : List Concept :=
  List.insertionSort dueKeyLE (concepts.filter (is_due now))

/-- A due concept at UNKNOWN whose next_review is exactly now = 0. -/
def unknownDueNow : Concept :=
  { id := 1, name := "arrays", content := "arrays are data structures",
    mastery_level := .UNKNOWN, difficulty_level := .BASIC,
    last_reviewed := none, next_review := 0, review_count := 0,
    correct_streak := 0, unaided_streak := 0 }

/-- A due concept at FAMILIAR whose next_review is one day before now. -/
def familiarDueYesterday : Concept :=
  { id := 2, name := "stacks", content := "stacks are data structures",
    mastery_level := .FAMILIAR, difficulty_level := .BASIC,
    last_reviewed := some (-172800), next_review := -86400,
    review_count := 3, correct_streak := 1, unaided_streak := 1 }

/-- C6: due selection orders concepts by ascending mastery_level as the
primary key, then ascending next_review; the output is a permutation of
the due concepts; in particular a due UNKNOWN concept with
next_review = now precedes a due FAMILIAR concept with
next_review = now - 1 day. -/
theorem due_selection_ordering (concepts : List Concept) (now : Int) :
    List.Sorted dueKeyLE (due_concepts concepts now) ∧
    (due_concepts concepts now).Perm (concepts.filter (is_due now)) ∧
    due_concepts [familiarDueYesterday, unknownDueNow] 0
      = [unknownDueNow, familiarDueYesterday] := by
  refine ⟨List.sorted_insertionSort dueKeyLE _,
    List.perm_insertionSort dueKeyLE _, ?_⟩
  decide

/-- Linear mastery value: UNKNOWN = 0.0, MASTERED = 1.0, steps of 0.25
(spec §4.4). -/
def masteryValue (m : MasteryLevel) : ℚ :=
  (m.toNat : ℚ) / 4

/-- Per-level concept counts, from api.ts `ClassProgress.mastery_distribution`:
exactly one count per mastery level. -/
structure MasteryDistribution where
  UNKNOWN : Nat
  LEARNING : Nat
  FAMILIAR : Nat
  PROFICIENT : Nat
  MASTERED : Nat
deriving DecidableEq, Repr

/-- Progress summary, from api.ts `ClassProgress`. -/
structure ClassProgress where
  total_concepts : Nat
  concepts_due : Nat
  average_mastery : ℚ
  mastery_distribution : MasteryDistribution
deriving DecidableEq, Repr

/-- Number of concepts in the scope at a given mastery level. -/
def countLevel (concepts : List Concept) (m : MasteryLevel) : Nat :=
  (concepts.filter (fun c => c.mastery_level == m)).length

/-- Modelled from the spec: the Progress Aggregator `get_progress`
(spec §4.4; the backend implementation is not in src/): a pure
read/aggregate over the Concept Store. -/
def get_progress (concepts : List Concept) (now : Int) : ClassProgress :=
  { total_concepts := concepts.length
    concepts_due := (concepts.filter (is_due now)).length
    average_mastery :=
      (concepts.map (fun c => masteryValue c.mastery_level)).sum / concepts.length
    mastery_distribution :=
      { UNKNOWN := countLevel concepts .UNKNOWN
        LEARNING := countLevel concepts .LEARNING
        FAMILIAR := countLevel concepts .FAMILIAR
        PROFICIENT := countLevel concepts .PROFICIENT
        MASTERED := countLevel concepts .MASTERED } }

theorem masteryValue_nonneg (m : MasteryLevel) : 0 ≤ masteryValue m := by
  cases m <;> norm_num [masteryValue, MasteryLevel.toNat]

theorem masteryValue_le_one (m : MasteryLevel) : masteryValue m ≤ 1 := by
  cases m <;> simp [masteryValue, MasteryLevel.toNat] <;> norm_num

/-- C8: the average mastery returned by get_progress lies in [0, 1] and
is the mean over the scope of the linear mastery values, where
masteryValue is UNKNOWN = 0, MASTERED = 1, with steps of 0.25 per
level. -/
theorem average_mastery_unit_interval (concepts : List Concept) (now : Int) :
    (0 ≤ (get_progress concepts now).average_mastery ∧
     (get_progress concepts now).average_mastery ≤ 1) ∧
    (get_progress concepts now).average_mastery
      = (concepts.map (fun c => masteryValue c.mastery_level)).sum
          / concepts.length ∧
    masteryValue .UNKNOWN = 0 ∧ masteryValue .MASTERED = 1 ∧
    ∀ m : MasteryLevel, masteryValue m = m.toNat * (1 / 4 : ℚ) := by
  have hsum0 : 0 ≤ (concepts.map (fun c => masteryValue c.mastery_level)).sum := by
    apply List.sum_nonneg
    intro x hx
    obtain ⟨c, _, rfl⟩ := List.mem_map.mp hx
    exact masteryValue_nonneg _
  refine ⟨⟨?_, ?_⟩, rfl, by norm_num [masteryValue, MasteryLevel.toNat],
    by norm_num [masteryValue, MasteryLevel.toNat],
    fun m => by rw [masteryValue, div_eq_mul_one_div]⟩
  · exact div_nonneg hsum0 (by positivity)
  · rcases concepts with _ | ⟨c, cs⟩
    · simp [get_progress]
    · have hlen : (0 : ℚ) < ((c :: cs).length : ℚ) := by
        simp
        positivity
      rw [get_progress]
      apply div_le_one_of_le₀ _ (le_of_lt hlen)
      have hb : ∀ x ∈ (c :: cs).map (fun d => masteryValue d.mastery_level), x ≤ 1 := by
        intro x hx
        obtain ⟨d, _, rfl⟩ := List.mem_map.mp hx
        exact masteryValue_le_one _
      calc ((c :: cs).map (fun d => masteryValue d.mastery_level)).sum
          ≤ ((c :: cs).map (fun d => masteryValue d.mastery_level)).length • (1 : ℚ) :=
            List.sum_le_card_nsmul _ _ hb
        _ = ((c :: cs).length : ℚ) := by simp

/-- Review Session record, one per answer submitted (spec §3, §6). -/
structure ReviewSession where
  concept_id : Nat
  question : String
  user_answer : String
  correct : Bool
  timestamp : Int
  hints_used : Nat
deriving DecidableEq, Repr

/-- External AI collaborator failure (spec §7). -/
structure GenerationError where
  message : String
deriving DecidableEq, Repr

/-- Evaluation returned by the AI collaborator (spec §4.2). -/
structure Evaluation where
  correct : Bool
  score : Nat
  feedback : String
  hints_used : Nat
deriving DecidableEq, Repr

/-- Typed failures surfaced to the caller (spec §7 taxonomy, the two
cases submit_answer can produce). -/
inductive ApiError where
  | generation (e : GenerationError)
  | notFound
deriving DecidableEq, Repr

/-- Persistent state owned by the Concept Store: the concepts and the
append-only review-session log (spec §3). -/
structure SystemState where
  concepts : List Concept
  sessions : List ReviewSession
deriving DecidableEq, Repr

/-- Modelled from the spec: the Session Orchestrator applying the
Scheduler result to a concept after a successfully evaluated answer
(spec §4.3; the backend implementation is not in src/): mastery,
streak and the unaided sub-counter come from the transition,
next_review is derived from the post-transition interval, review_count
advances by one. -/
def apply_scheduler (c : Concept) (ev : Evaluation) (now : Int) : Concept :=
  let r := next_state c.mastery_level c.correct_streak c.unaided_streak
    ev.correct ev.hints_used
  { c with
    mastery_level := r.newMastery
    correct_streak := r.newStreak
    unaided_streak := r.newUnaided
    last_reviewed := some now
    next_review := nextReviewAt now r.reviewIntervalDays
    review_count := c.review_count + 1 }

/-- Modelled from the spec: the Session Orchestrator `submit_answer`
(spec §4.3, §6, §7; the backend implementation is not in src/).  The
external evaluation outcome is passed in as an Except value.  On
GenerationError, no Review Session record is appended and no concept
state is mutated; on success, a session record is appended and the
Scheduler is applied to the referenced concept. -/
def submit_answer (st : SystemState) (cid : Nat) (question answer : String)
    (evalOutcome : Except GenerationError Evaluation) (now : Int) :
    SystemState × Except ApiError Evaluation :=
  match evalOutcome with
  | .error e => (st, .error (ApiError.generation e))
  | .ok ev =>
    if st.concepts.any (fun c => c.id == cid) then
      ({ concepts := st.concepts.map
           (fun c => if c.id = cid then apply_scheduler c ev now else c)
         sessions :=
           { concept_id := cid, question := question, user_answer := answer,
             correct := ev.correct, timestamp := now,
             hints_used := ev.hints_used } :: st.sessions },
       .ok ev)
    else
      (st, .error ApiError.notFound)

/-- C5: a GenerationError during evaluate_answer leaves all persisted
mastery state unchanged: the whole store (hence review_count,
mastery_level and correct_streak of every concept) keeps its pre-call
value, no Review Session record is written, and the error is surfaced,
so the caller can retry without review_count having advanced. -/
theorem generation_error_leaves_state_unchanged (st : SystemState)
    (cid : Nat) (question answer : String) (e : GenerationError) (now : Int) :
    (submit_answer st cid question answer (.error e) now).1 = st ∧
    (submit_answer st cid question answer (.error e) now).1.sessions
      = st.sessions ∧
    (submit_answer st cid question answer (.error e) now).1.concepts.map
        Concept.review_count
      = st.concepts.map Concept.review_count ∧
    (submit_answer st cid question answer (.error e) now).2
      = .error (ApiError.generation e) :=
  ⟨rfl, rfl, rfl, rfl⟩

/-- Caller-facing operations of the core (spec §6). -/
inductive Operation where
  | start_session (now : Int)
  | submit (cid : Nat) (question answer : String)
      (evalOutcome : Except GenerationError Evaluation) (now : Int)
  | progress_read (now : Int)
  | generate_concepts (newConcepts : List Concept)

/-- Modelled from the spec: one caller-facing operation acting on the
Concept Store state (spec §2, §4.3, §4.4, §5; the backend
implementation is not in src/).  start_session selects due concepts
without writing (only a successfully evaluated answer mutates state,
spec §4.3); get_progress is a pure read; submit_answer is the Session
Orchestrator write; generate_concepts appends freshly created concepts
whose ids are not already in the store (ids are never reused). -/
def step (st : SystemState) : Operation → SystemState
  | .start_session _ => st
  | .submit cid q a r now => (submit_answer st cid q a r now).1
  | .progress_read _ => st
  | .generate_concepts cs =>
    { st with concepts :=
        st.concepts ++ cs.filter (fun c => st.concepts.all (fun d => d.id != c.id)) }

/-- C7: get_progress is a pure read with no side effects: the read
leaves the store unchanged, so reading twice with no intervening
mutation yields identical results. -/
theorem get_progress_pure_read (st : SystemState) (now : Int) :
    step st (.progress_read now) = st ∧
    get_progress (step st (.progress_read now)).concepts now
      = get_progress st.concepts now :=
  ⟨rfl, rfl⟩

/-- C9: across every operation of the system, each stored concept is
either unchanged or replaced by the Scheduler-applied update (new
concepts may be appended by creation); the applied update takes its
mastery level and streak exactly from the Scheduler transition
function and its next_review is derived from the post-transition
result, never set directly; and the read-only operations
(start_session, get_progress) never write the store — the Session
Orchestrator's submit_answer is the only writer of existing concept
state. -/
theorem mastery_changes_only_via_scheduler (st : SystemState) (op : Operation) :
    (∃ f : Concept → Concept, ∃ appended : List Concept,
      (step st op).concepts = st.concepts.map f ++ appended ∧
      ∀ c : Concept, f c = c ∨ ∃ ev now, f c = apply_scheduler c ev now) ∧
    (∀ (c : Concept) (ev : Evaluation) (now : Int),
      (apply_scheduler c ev now).mastery_level
        = (next_state c.mastery_level c.correct_streak c.unaided_streak
            ev.correct ev.hints_used).newMastery ∧
      (apply_scheduler c ev now).correct_streak
        = (next_state c.mastery_level c.correct_streak c.unaided_streak
            ev.correct ev.hints_used).newStreak ∧
      (apply_scheduler c ev now).next_review
        = nextReviewAt now
            (next_state c.mastery_level c.correct_streak c.unaided_streak
              ev.correct ev.hints_used).reviewIntervalDays) ∧
    (∀ t : Int, step st (.start_session t) = st ∧
      step st (.progress_read t) = st) := by
  refine ⟨?_, fun c ev now => ⟨rfl, rfl, rfl⟩, fun t => ⟨rfl, rfl⟩⟩
  cases op with
  | start_session t =>
    exact ⟨id, [], by simp [step], fun c => Or.inl rfl⟩
  | progress_read t =>
    exact ⟨id, [], by simp [step], fun c => Or.inl rfl⟩
  | generate_concepts cs =>
    exact ⟨id, cs.filter (fun c => st.concepts.all (fun d => d.id != c.id)),
      by simp [step], fun c => Or.inl rfl⟩
  | submit cid q a r now =>
    cases r with
    | error e =>
      exact ⟨id, [], by simp [step, submit_answer], fun c => Or.inl rfl⟩
    | ok ev =>
      by_cases h : st.concepts.any (fun c => c.id == cid)
      · refine ⟨fun c => if c.id = cid then apply_scheduler c ev now else c, [],
          by simp [step, submit_answer, h], fun c => ?_⟩
        by_cases hc : c.id = cid
        · exact Or.inr ⟨ev, now, by simp only [if_pos hc]⟩
        · exact Or.inl (by simp only [if_neg hc])
      · exact ⟨id, [], by simp [step, submit_answer, h], fun c => Or.inl rfl⟩

/-- JS `String.prototype.toLowerCase` on the ASCII range used by the
quiz strings: maps A-Z to a-z and leaves every other character. -/
def jsToLowerChar (c : Char) : Char :=
  if 'A' ≤ c ∧ c ≤ 'Z' then Char.ofNat (c.toNat + 32) else c

/-- Whitespace stripped by JS `String.prototype.trim`. -/
def jsIsWhitespace (c : Char) : Bool :=
  c = ' ' ∨ c = '\t' ∨ c = '\n' ∨ c = '\r'

/-- JS `String.prototype.trim`: strip whitespace from both ends. -/
def jsTrim (s : List Char) : List Char :=
  ((s.dropWhile jsIsWhitespace).reverse.dropWhile jsIsWhitespace).reverse

/-- `s.toLowerCase().trim()` as used at QuizMode.tsx line 117. -/
def jsNormalize (s : String) : List Char :=
  jsTrim (s.data.map jsToLowerChar)

/-- Question kind of the note-quiz questions (QuizMode.tsx `Question.type`). -/
inductive QuestionKind where
  | multipleChoice
  | shortAnswer
deriving DecidableEq, Repr

/-- Note-quiz question, from QuizMode.tsx `Question`. -/
structure QuizQuestion where
  question : String
  options : Option (List String)
  answer : String
  kind : QuestionKind
deriving DecidableEq, Repr

/-- Per-question quiz record, from QuizMode.tsx `QuizResult`. -/
structure QuizResult where
  question : String
  userAnswer : String
  correctAnswer : String
  isCorrect : Bool
deriving DecidableEq, Repr

/-- QuizMode.tsx line 117: the local correctness check
`userAnswer.toLowerCase().trim() === currentQuestion.answer.toLowerCase().trim()`. -/
def quizIsCorrect (userAnswer : String) (q : QuizQuestion) : Bool :=
  jsNormalize userAnswer == jsNormalize q.answer

/-- QuizMode.tsx `handleAnswerSubmit` (lines 116-128): builds the
result record with the locally computed `isCorrect` and appends it to
`results`; no external evaluator is consulted. -/
def handleAnswerSubmit (userAnswer : String) (q : QuizQuestion)
    (results : List QuizResult) : List QuizResult :=
  results ++ [{ question := q.question, userAnswer := userAnswer,
                correctAnswer := q.answer,
                isCorrect := quizIsCorrect userAnswer q }]

/-- The fourth mock question of QuizMode.tsx (stored answer "4"). -/
def meiosisDaughterCellsQuestion : QuizQuestion :=
  { question := "How many daughter cells are produced from one round of meiosis?",
    options := none, answer := "4", kind := .shortAnswer }

/-- C4 counterexample: an answer-checking operation of the program does
determine the recorded correctness by a local string-matching
comparison.  QuizMode's handleAnswerSubmit records the verdict of
comparing the normalized user answer with the stored answer string,
with no external evaluator in the computation: on the stored answer
"4", the submission " 4 " is recorded correct and the semantically
equivalent "four" is recorded incorrect, each verdict being exactly the
local string comparison. -/
theorem quizmode_checks_answers_by_string_match :
    handleAnswerSubmit " 4 " meiosisDaughterCellsQuestion []
      = [{ question := meiosisDaughterCellsQuestion.question,
           userAnswer := " 4 ", correctAnswer := "4", isCorrect := true }] ∧
    handleAnswerSubmit "four" meiosisDaughterCellsQuestion []
      = [{ question := meiosisDaughterCellsQuestion.question,
           userAnswer := "four", correctAnswer := "4", isCorrect := false }] ∧
    quizIsCorrect " 4 " meiosisDaughterCellsQuestion
      = (jsNormalize " 4 " == jsNormalize "4") ∧
    quizIsCorrect "four" meiosisDaughterCellsQuestion
      = (jsNormalize "four" == jsNormalize "4") := by
  refine ⟨?_, ?_, rfl, rfl⟩ <;> decide

/-- Evaluation as received by the frontend, from api.ts
`AnswerEvaluation` (the scheduling fields are elided). -/
structure FrontendEvaluation where
  correct : Bool
  score : Nat
  feedback : String
deriving DecidableEq, Repr

/-- TopicViewer `handleSubmitAnswer` (src/unnamed/part_001 lines
140-163): on success it stores the evaluation returned by
apiService.submitAnswer unchanged as `lastEvaluation`; on failure the
previous value is kept (only an alert is shown). -/
def handleSubmitAnswer (response : Except ApiError FrontendEvaluation)
    (lastEvaluation : Option FrontendEvaluation) : Option FrontendEvaluation :=
  match response with
  | .ok ev => some ev
  | .error _ => lastEvaluation

/-- C4 amended: in the active-recall answer flow the recorded
correctness is the external evaluator's verdict and no local
string-matching fallback exists — submit_answer stores exactly the
evaluator's `correct` bit in the appended Review Session record and
passes the evaluation through unchanged, and the frontend
handleSubmitAnswer keeps that evaluation verbatim; the standalone
QuizMode note-quiz component, however, checks answers by a local
string comparison. -/
theorem active_recall_correctness_from_evaluator (st : SystemState)
    (cid : Nat) (q a : String) (ev : Evaluation) (now : Int)
    (resp : FrontendEvaluation) (prev : Option FrontendEvaluation) :
    ((submit_answer st cid q a (.ok ev) now).1.sessions = st.sessions ∨
     ∃ s : ReviewSession,
       (submit_answer st cid q a (.ok ev) now).1.sessions = s :: st.sessions ∧
       s.correct = ev.correct) ∧
    ((submit_answer st cid q a (.ok ev) now).2 = .ok ev ∨
     (submit_answer st cid q a (.ok ev) now).2 = .error ApiError.notFound) ∧
    handleSubmitAnswer (.ok resp) prev = some resp := by
  refine ⟨?_, ?_, rfl⟩ <;> by_cases h : st.concepts.any (fun c => c.id == cid)
  · exact Or.inr ⟨⟨cid, q, a, ev.correct, now, ev.hints_used⟩,
      by simp [submit_answer, h], rfl⟩
  · exact Or.inl (by simp [submit_answer, h])
  · exact Or.inl (by simp [submit_answer, h])
  · exact Or.inr (by simp [submit_answer, h])

/-- The five per-level counts partition the concepts of the scope. -/
theorem countLevel_partition (concepts : List Concept) :
    countLevel concepts .UNKNOWN + countLevel concepts .LEARNING +
    countLevel concepts .FAMILIAR + countLevel concepts .PROFICIENT +
    countLevel concepts .MASTERED = concepts.length := by
  induction concepts with
  | nil => rfl
  | cons c cs ih =>
    cases hm : c.mastery_level <;>
      simp only [countLevel, List.filter_cons, hm, List.length_cons] at ih ⊢ <;>
      simp only [beq_iff_eq, reduceCtorEq, if_true, if_false, List.length_cons,
        reduceIte] <;> omega

/-- C10: mastery levels come from exactly the five closed labels and
difficulty levels from exactly the four; last_reviewed may be null
(never reviewed) while next_review is always a present timestamp; and
the mastery_distribution of get_progress carries a count for each of
the five levels and nothing else: the five counts determine the
distribution completely and sum to the total number of concepts in
scope. -/
theorem concept_interface_closed_enums :
    (∀ m : MasteryLevel, m = .UNKNOWN ∨ m = .LEARNING ∨ m = .FAMILIAR ∨
      m = .PROFICIENT ∨ m = .MASTERED) ∧
    (∀ d : DifficultyLevel, d = .BASIC ∨ d = .INTERMEDIATE ∨
      d = .ADVANCED ∨ d = .EXPERT) ∧
    (∀ c : Concept, c.last_reviewed = none ∨ ∃ t, c.last_reviewed = some t) ∧
    (∀ c : Concept, ∃ t : Int, c.next_review = t) ∧
    (∀ d1 d2 : MasteryDistribution,
      d1 = d2 ↔ (d1.UNKNOWN = d2.UNKNOWN ∧ d1.LEARNING = d2.LEARNING ∧
        d1.FAMILIAR = d2.FAMILIAR ∧ d1.PROFICIENT = d2.PROFICIENT ∧
        d1.MASTERED = d2.MASTERED)) ∧
    (∀ (concepts : List Concept) (now : Int),
      (get_progress concepts now).mastery_distribution.UNKNOWN +
      (get_progress concepts now).mastery_distribution.LEARNING +
      (get_progress concepts now).mastery_distribution.FAMILIAR +
      (get_progress concepts now).mastery_distribution.PROFICIENT +
      (get_progress concepts now).mastery_distribution.MASTERED
        = (get_progress concepts now).total_concepts) := by
  refine ⟨fun m => by cases m <;> simp,
    fun d => by cases d <;> simp,
    fun c => ?_, fun c => ⟨c.next_review, rfl⟩,
    fun d1 d2 => ⟨fun h => by subst h; exact ⟨rfl, rfl, rfl, rfl, rfl⟩,
      fun h => ?_⟩,
    fun concepts now => countLevel_partition concepts⟩
  · cases hl : c.last_reviewed with
    | none => exact Or.inl rfl
    | some t => exact Or.inr ⟨t, rfl⟩
  · obtain ⟨h1, h2, h3, h4, h5⟩ := h
    cases d1
    cases d2
    simp only at h1 h2 h3 h4 h5
    subst h1 h2 h3 h4 h5
    rfl

end StudyBuddy
